import Mathlib

/-!
Shallow embedding of the HTTP transport of the ClickHouse Go client
(`conn_http.go`): connection dial, request preparation, request execution,
response reading, ping, async-insert rejection, and close.

External effects (the HTTP exchange, the query path `h.query`, the timezone
database `time.LoadLocation`, the body stream) are passed in as explicit
oracle values, so every function here is a pure translation of the source's
control flow over those inputs.
-/

/-- Go errors, as used by `conn_http.go`: `errors.New` / `fmt.Errorf` produce
string errors, `driver.ErrBadConn` is a sentinel, `errors.Wrap` wraps an
error with a message. -/
inductive Err where
  | errString (s : String)
  | errBadConn
  | wrap (msg : String) (e : Err)
deriving DecidableEq, Repr

/-- `url.Values` restricted to what the source uses: a key-to-value map with
`Set` (replace) and lookup. Go's `url.Values` maps keys to value lists, but
the source only ever calls `Set`, which keeps a single value per key. -/
abbrev URLValues := String → Option String

/-- `query.Set(k, v)`: replace the value under key `k`. -/
def URLValues.set (q : URLValues) (k v : String) : URLValues :=
  fun k' => if k' = k then some v else q k'

/-- An empty parameter set (a fresh `url.URL` has no query parameters). -/
def emptyValues : URLValues := fun _ => none

def quotaKeyParamName : String := "quota_key"

def queryIDParamName : String := "query_id"

/-- The query-parameter portion of `dialHttp` (lines 46-51): copy every
configured default setting (already stringified, as `fmt.Sprint` does) into
the URL query, then force `default_format` to `"Native"`. -/
def dialQuery (settings : List (String × String)) : URLValues :=
  (settings.foldl (fun q kv => q.set kv.1 kv.2) emptyValues).set "default_format" "Native"

/-- The `httpConnect` handle: the endpoint's baked-in query parameters, the
presence of the transport handle (`client ≠ nil`), and the resolved server
timezone. The bound encoder and decoder are opaque to every claim and are
omitted. -/
structure HttpConnect where
  urlQuery : URLValues
  clientPresent : Bool
  location : Option String

/-- An outbound `http.Request`, reduced to the part the source manipulates:
its URL query parameters. -/
structure Request where
  urlQuery : URLValues

/-- Per-call `QueryOptions`: query identifier, quota key, and the settings
mapping (values already stringified, as `fmt.Sprint` does). -/
structure QueryOptions where
  queryID : String
  quotaKey : String
  settings : List (String × String)

/-- The settings loop of `prepareRequest` (lines 151-157): overlay every
per-call setting onto the query, silently skipping any entry whose key is
`default_format`. -/
def settingsOverlay (settings : List (String × String)) (query : URLValues) : URLValues :=
  settings.foldl (fun q kv => if kv.1 = "default_format" then q else q.set kv.1 kv.2) query

/-- `prepareRequest` (lines 138-162). `construction` is the outcome of
`http.NewRequestWithContext`: on success the request inherits the handle's
URL (and hence its query parameters); on failure the request is nil.
The result is `none` when the code faults (dereferences the nil request),
and otherwise `some (req, err)` mirroring Go's multi-value return. -/
def HttpConnect.prepareRequest (h : HttpConnect) (construction : Except Err Unit)
    (options : Option QueryOptions) : Option (Option Request × Option Err) :=
  let req : Option Request :=
    match construction with
    | .ok _ => some ⟨h.urlQuery⟩
    | .error _ => none
  let err : Option Err :=
    match construction with
    | .ok _ => none
    | .error e => some e
  match options with
  | none => some (req, err)
  | some o =>
    match req with
    | none => none
    | some r =>
      let query := r.urlQuery
      let query := if o.queryID ≠ "" then query.set queryIDParamName o.queryID else query
      let query := if o.quotaKey ≠ "" then query.set quotaKeyParamName o.quotaKey else query
      let query := settingsOverlay o.settings query
      some (some ⟨query⟩, err)

theorem URLValues.set_same (q : URLValues) (k v : String) : (q.set k v) k = some v := by
  simp [URLValues.set]

theorem URLValues.set_other (q : URLValues) (k v k' : String) (h : k' ≠ k) :
    (q.set k v) k' = q k' := by
  simp [URLValues.set, h]

theorem dialQuery_default_format (S : List (String × String)) :
    dialQuery S "default_format" = some "Native" := by
  simp [dialQuery, URLValues.set]

theorem settingsOverlay_default_format (T : List (String × String)) (q : URLValues)
    (h : q "default_format" = some "Native") :
    settingsOverlay T q "default_format" = some "Native" := by
  induction T generalizing q with
  | nil => exact h
  | cons kv T ih =>
    show settingsOverlay T (if kv.1 = "default_format" then q else q.set kv.1 kv.2)
        "default_format" = some "Native"
    by_cases hk : kv.1 = "default_format"
    · rw [if_pos hk]; exact ih q h
    · rw [if_neg hk]
      exact ih _ (by rw [URLValues.set_other q kv.1 kv.2 _ (fun he => hk he.symm)]; exact h)

/-- Claim C1: for every configured default settings S (used at dial) and every
per-call settings mapping T, the prepared request's `default_format` URL
parameter equals the connection-level default `"Native"`: dial forces it after
copying S, and `prepareRequest` skips any per-call entry with that key. -/
theorem default_format_always_native (S : List (String × String))
    (options : Option QueryOptions) (cp : Bool) (loc : Option String) :
    ∃ r : Request,
      HttpConnect.prepareRequest ⟨dialQuery S, cp, loc⟩ (.ok ()) options
        = some (some r, none) ∧
      r.urlQuery "default_format" = some "Native" := by
  match options with
  | none =>
    exact ⟨⟨dialQuery S⟩, rfl, dialQuery_default_format S⟩
  | some o =>
    refine ⟨_, rfl, ?_⟩
    apply settingsOverlay_default_format
    have h1 : (if o.queryID ≠ "" then (dialQuery S).set queryIDParamName o.queryID
        else dialQuery S) "default_format" = some "Native" := by
      by_cases hq : o.queryID ≠ ""
      · rw [if_pos hq, URLValues.set_other _ _ _ _ (by decide)]
        exact dialQuery_default_format S
      · rw [if_neg hq]; exact dialQuery_default_format S
    by_cases hk : o.quotaKey ≠ ""
    · rw [if_pos hk, URLValues.set_other _ _ _ _ (by decide)]; exact h1
    · rw [if_neg hk]; exact h1

/-- `ping` (lines 187-199). The query path `h.query` is external to this file;
its outcome (the column name list of the result, or an error) is the input.
The result is `none` on success, `some e` on failure, mirroring Go's
`error` return. -/
def ping (queryResult : Except Err (List String)) : Option Err :=
  match queryResult with
  | .error e => some e
  | .ok column =>
    if column.length = 1 ∧ column.getD 0 "" = "1" then none
    else some (.errString "clickhouse [ping]:: cannot ping clickhouse")

theorem ping_ok_eq (column : List String) :
    ping (.ok column)
      = if column.length = 1 ∧ column.getD 0 "" = "1" then none
        else some (.errString "clickhouse [ping]:: cannot ping clickhouse") := rfl

/-- Claim C2: `ping` succeeds iff the query path returns exactly one column
named `"1"`; any other column count or name yields the PingError
`"cannot ping"`, and a query-path failure is returned as-is. -/
theorem ping_succeeds_iff_single_column_one :
    (∀ column : List String, ping (.ok column) = none ↔ column = ["1"]) ∧
    (∀ column : List String, column ≠ ["1"] →
      ping (.ok column)
        = some (.errString "clickhouse [ping]:: cannot ping clickhouse")) ∧
    (∀ e : Err, ping (.error e) = some e) := by
  have key : ∀ column : List String,
      (column.length = 1 ∧ column.getD 0 "" = "1") ↔ column = ["1"] := by
    intro column
    match column with
    | [] => simp
    | [c] => simp [List.getD]
    | c :: d :: t => simp
  refine ⟨?_, ?_, fun e => rfl⟩
  · intro column
    rw [ping_ok_eq]
    by_cases h : column.length = 1 ∧ column.getD 0 "" = "1"
    · rw [if_pos h]
      simp [(key column).mp h]
    · rw [if_neg h]
      exact ⟨fun hc => absurd hc (Option.some_ne_none _),
             fun hc => absurd ((key column).mpr hc) h⟩
  · intro column hne
    rw [ping_ok_eq, if_neg (fun hc => hne ((key column).mp hc))]

/-- Claim C2 witness: concrete evaluations through the theorem. -/
theorem ping_succeeds_iff_single_column_one_witness :
    ping (.ok ["1"]) = none ∧
    ping (.ok ["2"]) = some (.errString "clickhouse [ping]:: cannot ping clickhouse") ∧
    ping (.ok []) = some (.errString "clickhouse [ping]:: cannot ping clickhouse") ∧
    ping (.error .errBadConn) = some .errBadConn :=
  ⟨(ping_succeeds_iff_single_column_one.1 ["1"]).mpr rfl,
   ping_succeeds_iff_single_column_one.2.1 ["2"] (by decide),
   ping_succeeds_iff_single_column_one.2.1 [] (by decide),
   ping_succeeds_iff_single_column_one.2.2 .errBadConn⟩

/-- The handshake row loop of `dialHttp` (lines 78-86): for each returned row,
scan one string value and resolve it via `time.LoadLocation` (the oracle
`loadLocation`); a resolution failure aborts with that error, and each
successful resolution overwrites the connection's location. -/
def handshakeTimezone (loadLocation : String → Except Err String) :
    List String → Option String → Except Err (Option String)
  | [], loc => .ok loc
  | serverLocation :: rest, _ =>
    match loadLocation serverLocation with
    | .error e => .error e
    | .ok location => handshakeTimezone loadLocation rest (some location)

/-- `dialHttp` (lines 40-89), over the oracles for the timezone database and
for the handshake query's scanned rows: builds the endpoint query parameters
from the configured settings, creates the handle with no resolved location,
runs the `SELECT timeZone()` row loop, and returns the handle (or the first
error). Transport construction (timeouts, TLS) carries no observable state
for any claim and is omitted. -/
def dialHttp (settings : List (String × String)) (loadLocation : String → Except Err String)
    (handshakeRows : Except Err (List String)) : Except Err HttpConnect :=
  match handshakeRows with
  | .error e => .error e
  | .ok rows =>
    match handshakeTimezone loadLocation rows none with
    | .error e => .error e
    | .ok loc => .ok ⟨dialQuery settings, true, loc⟩

theorem handshakeTimezone_cons (tz : String → Except Err String) (r : String)
    (rest : List String) (loc : Option String) :
    handshakeTimezone tz (r :: rest) loc
      = match tz r with
        | .error e => .error e
        | .ok location => handshakeTimezone tz rest (some location) := rfl

theorem dialHttp_ok (S : List (String × String)) (tz : String → Except Err String)
    (rows : List String) :
    dialHttp S tz (.ok rows)
      = match handshakeTimezone tz rows none with
        | .error e => .error e
        | .ok loc => .ok ⟨dialQuery S, true, loc⟩ := rfl

theorem handshakeTimezone_all_ok (tz : String → Except Err String)
    (rs : List String) (v l : String)
    (hall : ∀ r ∈ rs, ∃ l0, tz r = .ok l0) (hv : tz v = .ok l) :
    ∀ loc0 : Option String, handshakeTimezone tz (rs ++ [v]) loc0 = .ok (some l) := by
  induction rs with
  | nil =>
    intro loc0
    rw [List.nil_append, handshakeTimezone_cons, hv]
    rfl
  | cons r rs ih =>
    intro loc0
    obtain ⟨l0, hl0⟩ := hall r (List.mem_cons_self r rs)
    rw [List.cons_append, handshakeTimezone_cons, hl0]
    exact ih (fun r hr => hall r (List.mem_cons_of_mem _ hr)) (some l0)

theorem handshakeTimezone_first_failure (tz : String → Except Err String)
    (rs : List String) (v : String) (t : List String) (e : Err)
    (hall : ∀ r ∈ rs, ∃ l0, tz r = .ok l0) (hv : tz v = .error e) :
    ∀ loc0 : Option String, handshakeTimezone tz (rs ++ v :: t) loc0 = .error e := by
  induction rs with
  | nil =>
    intro loc0
    rw [List.nil_append, handshakeTimezone_cons, hv]
  | cons r rs ih =>
    intro loc0
    obtain ⟨l0, hl0⟩ := hall r (List.mem_cons_self r rs)
    rw [List.cons_append, handshakeTimezone_cons, hl0]
    exact ih (fun r hr => hall r (List.mem_cons_of_mem _ hr)) (some l0)

/-- Claim C3: a single handshake row whose value resolves yields a handle with
exactly that resolved timezone; zero rows yield a handle with no resolved
timezone and no error; with multiple rows (all resolving) the last resolved
value wins without error; and a value that fails resolution makes the dial
fail with that error. -/
theorem dialHttp_timezone_handshake :
    (∀ (S : List (String × String)) (tz : String → Except Err String) (v l : String),
      tz v = .ok l → dialHttp S tz (.ok [v]) = .ok ⟨dialQuery S, true, some l⟩) ∧
    (∀ (S : List (String × String)) (tz : String → Except Err String),
      dialHttp S tz (.ok []) = .ok ⟨dialQuery S, true, none⟩) ∧
    (∀ (S : List (String × String)) (tz : String → Except Err String)
        (rs : List String) (v l : String),
      (∀ r ∈ rs, ∃ l0, tz r = .ok l0) → tz v = .ok l →
      dialHttp S tz (.ok (rs ++ [v])) = .ok ⟨dialQuery S, true, some l⟩) ∧
    (∀ (S : List (String × String)) (tz : String → Except Err String)
        (rs : List String) (v : String) (t : List String) (e : Err),
      (∀ r ∈ rs, ∃ l0, tz r = .ok l0) → tz v = .error e →
      dialHttp S tz (.ok (rs ++ v :: t)) = .error e) := by
  refine ⟨?_, ?_, ?_, ?_⟩
  · intro S tz v l hv
    have h2 := handshakeTimezone_all_ok tz [] v l (by simp) hv none
    rw [List.nil_append] at h2
    rw [dialHttp_ok, h2]
  · intro S tz
    rw [dialHttp_ok]
    rfl
  · intro S tz rs v l hall hv
    have h2 := handshakeTimezone_all_ok tz rs v l hall hv none
    rw [dialHttp_ok, h2]
  · intro S tz rs v t e hall hv
    have h2 := handshakeTimezone_first_failure tz rs v t e hall hv none
    rw [dialHttp_ok, h2]

/-- Claim C3 witness: a concrete one-row handshake against a concrete
timezone database, through the theorem. -/
theorem dialHttp_timezone_handshake_witness :
    dialHttp [] (fun s => if s = "UTC" then .ok "UTC" else .error (.errString "unknown"))
      (.ok ["UTC"]) = .ok ⟨dialQuery [], true, some "UTC"⟩ :=
  dialHttp_timezone_handshake.1 []
    (fun s => if s = "UTC" then .ok "UTC" else .error (.errString "unknown"))
    "UTC" "UTC" rfl

/-- A response body stream (`io.ReadCloser`), modelled by the outcome of
draining it: the full byte sequence as a Go string, or a read error. -/
abbrev BodyStream := Except Err String

/-- An `http.Response`, reduced to what the source inspects: the status code,
the advertised `ContentLength` (negative when unknown), and the body. -/
structure HttpResponse where
  statusCode : Nat
  contentLength : Int
  body : BodyStream

/-- Outcome of `readResponse`: the returned bytes or error, the capacity the
buffer was pre-sized to, and whether the body was closed (the `defer`). -/
structure ReadResponseResult where
  result : Except Err String
  initialCap : Nat
  bodyClosed : Bool

/-- `http.StatusOK`. -/
def statusOK : Nat := 200

/-- `readResponse` (lines 122-136): pre-size the buffer to the advertised
content length when it is positive, drain the body into it, close the body on
every exit path (deferred), and return the buffer's bytes or the read error. -/
def readResponse (response : HttpResponse) : ReadResponseResult :=
  let c : Nat := if response.contentLength > 0 then response.contentLength.toNat else 0
  match response.body with
  | .error e => ⟨.error e, c, true⟩
  | .ok bs => ⟨.ok ("" ++ bs), c, true⟩

/-- Outcome of `executeRequest`: the returned body stream or error, and
whether the HTTP exchange was attempted (`h.client.Do` reached). -/
structure ExecResult where
  result : Except Err BodyStream
  networkAttempted : Bool

/-- `executeRequest` (lines 164-185), over the oracle for the HTTP exchange
(`h.client.Do`): bail out with the `driver.ErrBadConn` sentinel when the
transport handle is nil, pass a transport failure through unchanged, turn a
non-OK status into an error built from the status code and the body read by
`readResponse` (wrapping a body-read failure instead), and on OK status
return the unread body stream. -/
def HttpConnect.executeRequest (h : HttpConnect) (exchange : Except Err HttpResponse) :
    ExecResult :=
  if h.clientPresent = false then ⟨.error .errBadConn, false⟩
  else
    match exchange with
    | .error e => ⟨.error e, true⟩
    | .ok resp =>
      if resp.statusCode ≠ statusOK then
        match (readResponse resp).result with
        | .error e => ⟨.error (.wrap "clickhouse [execute]:: failed to read the response" e), true⟩
        | .ok msg =>
          ⟨.error (.errString ("clickhouse [execute]:: " ++ toString resp.statusCode
            ++ " code: " ++ msg)), true⟩
      else ⟨.ok resp.body, true⟩

/-- Claim C4: `executeRequest` on a handle with no transport handle fails
immediately with the `driver.ErrBadConn` sentinel and never attempts the
HTTP exchange. -/
theorem executeRequest_closed_no_io (h : HttpConnect) (exchange : Except Err HttpResponse)
    (hc : h.clientPresent = false) :
    h.executeRequest exchange = ⟨.error .errBadConn, false⟩ := by
  obtain ⟨u, cp, loc⟩ := h
  subst hc
  rfl

/-- Claim C4 witness: a concrete closed handle, through the theorem. -/
theorem executeRequest_closed_no_io_witness :
    HttpConnect.executeRequest ⟨emptyValues, false, none⟩
      (.ok ⟨statusOK, 0, .ok ""⟩) = ⟨.error .errBadConn, false⟩ :=
  executeRequest_closed_no_io ⟨emptyValues, false, none⟩ (.ok ⟨statusOK, 0, .ok ""⟩) rfl

theorem readResponse_eq (response : HttpResponse) :
    readResponse response
      = ⟨response.body.map (fun bs => "" ++ bs),
         if response.contentLength > 0 then response.contentLength.toNat else 0,
         true⟩ :=
  match response with
  | ⟨_, _, .error _⟩ => rfl
  | ⟨_, _, .ok _⟩ => rfl

theorem string_empty_append (s : String) : "" ++ s = s := by
  simp

/-- Claim C5: for every response with a non-OK status, `executeRequest` reads
the full body and fails with an error carrying the numeric status code and
the body text verbatim; a failure to read the body is instead wrapped and
returned as a distinct read error. -/
theorem executeRequest_non_ok_status :
    (∀ (h : HttpConnect) (resp : HttpResponse) (msg : String),
      h.clientPresent = true → resp.statusCode ≠ statusOK → resp.body = .ok msg →
      h.executeRequest (.ok resp)
        = ⟨.error (.errString ("clickhouse [execute]:: " ++ toString resp.statusCode
            ++ " code: " ++ msg)), true⟩) ∧
    (∀ (h : HttpConnect) (resp : HttpResponse) (e : Err),
      h.clientPresent = true → resp.statusCode ≠ statusOK → resp.body = .error e →
      h.executeRequest (.ok resp)
        = ⟨.error (.wrap "clickhouse [execute]:: failed to read the response" e), true⟩) := by
  constructor
  · intro h resp msg hc hs hb
    obtain ⟨u, cp, loc⟩ := h
    obtain ⟨sc, cl, body⟩ := resp
    subst hc
    subst hb
    show (if sc ≠ statusOK then _ else _) = _
    rw [if_pos hs, string_empty_append]
  · intro h resp e hc hs hb
    obtain ⟨u, cp, loc⟩ := h
    obtain ⟨sc, cl, body⟩ := resp
    subst hc
    subst hb
    show (if sc ≠ statusOK then _ else _) = _
    rw [if_pos hs]

/-- Claim C5 witness: a status-500 response with body `"syntax error"`, and a
status-500 response whose body read fails, through the theorem. -/
theorem executeRequest_non_ok_status_witness :
    HttpConnect.executeRequest ⟨emptyValues, true, none⟩ (.ok ⟨500, -1, .ok "syntax error"⟩)
      = ⟨.error (.errString ("clickhouse [execute]:: " ++ toString (500 : Nat)
          ++ " code: " ++ "syntax error")), true⟩ ∧
    HttpConnect.executeRequest ⟨emptyValues, true, none⟩
        (.ok ⟨500, -1, .error (.errString "read failed")⟩)
      = ⟨.error (.wrap "clickhouse [execute]:: failed to read the response"
          (.errString "read failed")), true⟩ :=
  ⟨executeRequest_non_ok_status.1 ⟨emptyValues, true, none⟩ ⟨500, -1, .ok "syntax error"⟩
      "syntax error" rfl (by decide) rfl,
   executeRequest_non_ok_status.2 ⟨emptyValues, true, none⟩
      ⟨500, -1, .error (.errString "read failed")⟩ (.errString "read failed")
      rfl (by decide) rfl⟩

/-- A `context.Context`, opaque to this transport: the source never inspects
it, only threads it through. -/
abbrev Context := Unit

/-- `asyncInsert` (lines 118-120): unconditionally an error. -/
def HttpConnect.asyncInsert (_h : HttpConnect) (_ctx : Context) (_query : String)
    (_wait : Bool) : Option Err :=
  some (.errString "HTTP: not supported")

/-- Claim C6: `asyncInsert` fails with the unsupported-operation error on
every invocation: for every handle, context, query string (including the
empty string) and either wait value. -/
theorem asyncInsert_always_fails (h : HttpConnect) (ctx : Context) (query : String)
    (wait : Bool) :
    h.asyncInsert ctx query wait = some (.errString "HTTP: not supported") := rfl

/-- `isBad` (lines 99-104): true iff the transport handle is nil. -/
def HttpConnect.isBad (h : HttpConnect) : Bool :=
  if h.clientPresent = false then true else false

/-- Outcome of `close`: the handle afterwards, the returned error, and
whether `CloseIdleConnections` was called on the transport. -/
structure CloseResult where
  conn : HttpConnect
  err : Option Err
  releasedIdleConnections : Bool

/-- `close` (lines 201-208): a no-op when the transport handle is already
nil; otherwise release idle connections and null the handle. Never errors. -/
def HttpConnect.close (h : HttpConnect) : CloseResult :=
  if h.clientPresent = false then ⟨h, none, false⟩
  else ⟨{ h with clientPresent := false }, none, true⟩

/-- Claim C7: `close` never returns an error; after any `close`, `isBad` is
true; on an already-closed handle `close` is a pure no-op (handle unchanged,
no error, no idle-connection release); on an open handle it releases idle
connections and nulls the handle with no error; and a second `close` is again
a no-op with no error. -/
theorem close_idempotent_never_fails :
    (∀ h : HttpConnect, (h.close).err = none) ∧
    (∀ h : HttpConnect, ((h.close).conn).isBad = true) ∧
    (∀ h : HttpConnect, h.clientPresent = false → h.close = ⟨h, none, false⟩) ∧
    (∀ h : HttpConnect, h.clientPresent = true →
      h.close = ⟨{ h with clientPresent := false }, none, true⟩) ∧
    (∀ h : HttpConnect, ((h.close).conn).close = ⟨(h.close).conn, none, false⟩) := by
  refine ⟨?_, ?_, ?_, ?_, ?_⟩
  · intro h
    obtain ⟨u, cp, loc⟩ := h
    cases cp <;> rfl
  · intro h
    obtain ⟨u, cp, loc⟩ := h
    cases cp <;> rfl
  · intro h hc
    obtain ⟨u, cp, loc⟩ := h
    subst hc
    rfl
  · intro h hc
    obtain ⟨u, cp, loc⟩ := h
    subst hc
    rfl
  · intro h
    obtain ⟨u, cp, loc⟩ := h
    cases cp <;> rfl

/-- Claim C7 witness: a concrete open handle closed twice, through the
theorem. -/
theorem close_idempotent_never_fails_witness :
    HttpConnect.close ⟨emptyValues, true, none⟩
      = ⟨⟨emptyValues, false, none⟩, none, true⟩ ∧
    HttpConnect.close ⟨emptyValues, false, none⟩
      = ⟨⟨emptyValues, false, none⟩, none, false⟩ ∧
    HttpConnect.isBad ⟨emptyValues, false, none⟩ = true :=
  ⟨close_idempotent_never_fails.2.2.2.1 ⟨emptyValues, true, none⟩ rfl,
   close_idempotent_never_fails.2.2.1 ⟨emptyValues, false, none⟩ rfl,
   close_idempotent_never_fails.2.1 ⟨emptyValues, true, none⟩⟩

/-- Claim C8: `readResponse` returns the complete byte sequence of the body
or the read error; the buffer is pre-sized to the advertised content length
when it is positive and starts from empty otherwise; the advertised length
never changes the returned bytes; and the body is closed on every exit
path. -/
theorem readResponse_complete_and_closed :
    (∀ resp : HttpResponse, (readResponse resp).result = resp.body) ∧
    (∀ resp : HttpResponse, (readResponse resp).bodyClosed = true) ∧
    (∀ resp : HttpResponse, resp.contentLength > 0 →
      (readResponse resp).initialCap = resp.contentLength.toNat) ∧
    (∀ resp : HttpResponse, resp.contentLength ≤ 0 → (readResponse resp).initialCap = 0) ∧
    (∀ (resp : HttpResponse) (cl : Int),
      (readResponse ⟨resp.statusCode, cl, resp.body⟩).result = (readResponse resp).result) := by
  have hres : ∀ resp : HttpResponse, (readResponse resp).result = resp.body := by
    intro resp
    obtain ⟨sc, cl, body⟩ := resp
    match body with
    | .error e => rfl
    | .ok bs =>
      show Except.ok ("" ++ bs) = Except.ok bs
      rw [string_empty_append]
  refine ⟨hres, ?_, ?_, ?_, ?_⟩
  · intro resp
    obtain ⟨sc, cl, body⟩ := resp
    match body with
    | .error e => rfl
    | .ok bs => rfl
  · intro resp h
    rw [readResponse_eq]
    show (if resp.contentLength > 0 then resp.contentLength.toNat else 0)
      = resp.contentLength.toNat
    rw [if_pos h]
  · intro resp h
    rw [readResponse_eq]
    show (if resp.contentLength > 0 then resp.contentLength.toNat else 0) = 0
    rw [if_neg (not_lt.mpr h)]
  · intro resp cl
    rw [hres, hres]

/-- Claim C8 witness: concrete responses through the theorem. -/
theorem readResponse_complete_and_closed_witness :
    (readResponse ⟨200, 11, .ok "hello world"⟩).result = .ok "hello world" ∧
    (readResponse ⟨200, 11, .ok "hello world"⟩).initialCap = 11 ∧
    (readResponse ⟨200, -1, .ok "hello world"⟩).initialCap = 0 ∧
    (readResponse ⟨200, -1, .error (.errString "broken pipe")⟩).bodyClosed = true :=
  ⟨readResponse_complete_and_closed.1 ⟨200, 11, .ok "hello world"⟩,
   readResponse_complete_and_closed.2.2.1 ⟨200, 11, .ok "hello world"⟩ (by decide),
   readResponse_complete_and_closed.2.2.2.1 ⟨200, -1, .ok "hello world"⟩ (by decide),
   readResponse_complete_and_closed.2.1 ⟨200, -1, .error (.errString "broken pipe")⟩⟩

/-- The operations available on a handle after dial. -/
inductive Op where
  | ping
  | prepareRequest
  | executeRequest
  | writeData
  | readData
  | asyncInsert
  | close
deriving DecidableEq

/-- Modelled from the spec: the query method `h.query` that `ping` runs
through is not part of the embedded file; the spec states the handle is
"mutated only by close (nulls transport) — no other mutation after
successful dial", so `ping`'s effect on the handle's state is the identity.
For the remaining non-close operations the identity effect is read off the
source, whose bodies contain no assignment to the handle's fields; `close`
is the embedded `HttpConnect.close`. -/
def applyOp (h : HttpConnect) : Op → HttpConnect
  | .close => (h.close).conn
  | .ping => h
  | .prepareRequest => h
  | .executeRequest => h
  | .writeData => h
  | .readData => h
  | .asyncInsert => h

/-- A sequence of post-dial operations applied to a handle. -/
def applyOps (h : HttpConnect) (ops : List Op) : HttpConnect :=
  ops.foldl applyOp h

theorem close_conn_clientPresent (h : HttpConnect) :
    ((h.close).conn).clientPresent = false := by
  obtain ⟨u, cp, loc⟩ := h
  cases cp <;> rfl

theorem close_conn_location (h : HttpConnect) : ((h.close).conn).location = h.location := by
  obtain ⟨u, cp, loc⟩ := h
  cases cp <;> rfl

theorem applyOp_location (h : HttpConnect) (op : Op) : (applyOp h op).location = h.location := by
  cases op with
  | close => exact close_conn_location h
  | ping => rfl
  | prepareRequest => rfl
  | executeRequest => rfl
  | writeData => rfl
  | readData => rfl
  | asyncInsert => rfl

theorem applyOp_closed (h : HttpConnect) (op : Op) (hc : h.clientPresent = false) :
    (applyOp h op).clientPresent = false := by
  cases op with
  | close => exact close_conn_clientPresent h
  | ping => exact hc
  | prepareRequest => exact hc
  | executeRequest => exact hc
  | writeData => exact hc
  | readData => exact hc
  | asyncInsert => exact hc

theorem applyOp_ne_close_id (h : HttpConnect) (op : Op) (hne : op ≠ Op.close) :
    applyOp h op = h := by
  cases op with
  | close => exact absurd rfl hne
  | ping => rfl
  | prepareRequest => rfl
  | executeRequest => rfl
  | writeData => rfl
  | readData => rfl
  | asyncInsert => rfl

theorem applyOps_location (h : HttpConnect) (ops : List Op) :
    (applyOps h ops).location = h.location := by
  induction ops generalizing h with
  | nil => rfl
  | cons op ops ih =>
    rw [show applyOps h (op :: ops) = applyOps (applyOp h op) ops from rfl]
    rw [ih (applyOp h op), applyOp_location h op]

theorem applyOps_closed (h : HttpConnect) (ops : List Op) (hc : h.clientPresent = false) :
    (applyOps h ops).clientPresent = false := by
  induction ops generalizing h with
  | nil => exact hc
  | cons op ops ih =>
    rw [show applyOps h (op :: ops) = applyOps (applyOp h op) ops from rfl]
    exact ih (applyOp h op) (applyOp_closed h op hc)

/-- Claim C9: the handle state machine is one-way: under every sequence of
post-dial operations the resolved timezone never changes; once the transport
handle is nulled, no sequence of operations re-establishes it; every
operation other than `close` leaves the handle unchanged; and `close` nulls
the transport handle. -/
theorem handle_lifecycle_one_way :
    (∀ (h : HttpConnect) (ops : List Op), (applyOps h ops).location = h.location) ∧
    (∀ (h : HttpConnect) (ops : List Op), h.clientPresent = false →
      (applyOps h ops).clientPresent = false) ∧
    (∀ (h : HttpConnect) (op : Op), op ≠ Op.close → applyOp h op = h) ∧
    (∀ h : HttpConnect, (applyOp h Op.close).clientPresent = false) :=
  ⟨applyOps_location, applyOps_closed, applyOp_ne_close_id,
   fun h => close_conn_clientPresent h⟩

/-- Claim C9 witness: a concrete closed handle stays closed and keeps its
timezone across a concrete operation sequence, through the theorem. -/
theorem handle_lifecycle_one_way_witness :
    (applyOps ⟨emptyValues, false, some "UTC"⟩
      [Op.ping, Op.executeRequest, Op.close]).clientPresent = false ∧
    (applyOps ⟨emptyValues, true, some "UTC"⟩ [Op.close, Op.ping]).location = some "UTC" ∧
    applyOp ⟨emptyValues, true, none⟩ Op.ping = ⟨emptyValues, true, none⟩ :=
  ⟨handle_lifecycle_one_way.2.1 ⟨emptyValues, false, some "UTC"⟩
      [Op.ping, Op.executeRequest, Op.close] rfl,
   handle_lifecycle_one_way.1 ⟨emptyValues, true, some "UTC"⟩ [Op.close, Op.ping],
   handle_lifecycle_one_way.2.2.1 ⟨emptyValues, true, none⟩ Op.ping (by decide)⟩

/-- Claim C10 (evaluation at the failing input): when request construction
fails (so the returned request is nil, as when the supplied context is nil)
and options is non-null, `prepareRequest` dereferences the nil request
(`req.URL.Query()`): the embedding reaches the fault marker `none` instead
of returning a request/error pair. -/
theorem prepareRequest_nil_request_fault :
    HttpConnect.prepareRequest ⟨emptyValues, true, none⟩
      (.error (.errString "net/http: nil Context")) (some ⟨"", "", []⟩) = none := rfl
